import Mathlib

/-!
Verification of the blur-compositing core of the blurry image editor
(src/App.tsx).  The application keeps three raster surfaces per loaded
image (original, display, blurred), paints circular regions of the
blurred surface onto the display surface under the pointer, and produces
the blurred surface either through the native canvas filter or through an
iterative downscale/upscale fallback.

Surfaces are modelled as total functions `ℤ → ℤ → α` (pixel grids with an
abstract pixel type); canvas coordinates are exact rationals, matching the
arithmetic the source performs on JS numbers.  `drawImage` restricted by a
circular clip is modelled as a pointwise selection between the source and
destination surfaces.  JS `Math.round x` is `⌊x + 1/2⌋`.

Definitions come first, translated from the source (with two clearly
named exceptions, `specFallbackUnclamped` and `specFallbackClamped`,
which transcribe the spec sentence of claim C1 for the refinement
comparison); all lemmas and theorems follow.
-/

/-- JS rounding, `Math.round x = ⌊x + 1/2⌋` (round half up). -/
def jsRound (q : ℚ) : ℤ := ⌊q + 1 / 2⌋

/-- Mirrors `const scale = Math.max(0.12, 1 - strength / 20)` in the
fallback branch of `updateBlurredCanvas` (App.tsx 689). -/
def scale (strength : ℚ) : ℚ := max (12 / 100) (1 - strength / 20)

/-- Mirrors `Math.max(1, Math.round(blurredCanvas.width * scale))`
(App.tsx 690), where the blurred canvas has the natural width `W`. -/
def scaledWidth (W : ℕ) (strength : ℚ) : ℤ := max 1 (jsRound (W * scale strength))

/-- Mirrors `Math.max(1, Math.round(blurredCanvas.height * scale))`
(App.tsx 691), where the blurred canvas has the natural height `H`. -/
def scaledHeight (H : ℕ) (strength : ℚ) : ℤ := max 1 (jsRound (H * scale strength))

/-- Mirrors `const passes = Math.max(1, Math.round(strength / 6))`
(App.tsx 692). -/
def passes (strength : ℚ) : ℤ := max 1 (jsRound (strength / 6))

/-- Which surface a fallback pass reads: the decoded image on the first
iteration, the blurred canvas afterwards (`source = blurredCanvas` at the
end of every iteration, App.tsx 721). -/
inductive BlurSource where
  | image
  | blurred
deriving DecidableEq, Repr

/-- One iteration of the fallback loop (App.tsx 710-722): downsample
`src` into the scratch canvas at `(scratchW, scratchH)`, then upsample
the scratch canvas into the blurred canvas at `(destW, destH)`.  The
field `smoothed` records that `imageSmoothingEnabled` was set to `true`
with quality high on both contexts before the loop (App.tsx 703-706). -/
structure BlurPass where
  scratchW : ℤ
  scratchH : ℤ
  destW : ℕ
  destH : ℕ
  smoothed : Bool
  src : BlurSource
deriving DecidableEq, Repr

/-- Remaining iterations of the fallback loop, with `src` the surface the
next iteration reads.  Mirrors `for (let pass = 0; pass < passes; pass +=
1) { ...; source = blurredCanvas }` (App.tsx 710-722). -/
def fallbackLoop (W H : ℕ) (strength : ℚ) : ℕ → BlurSource → List BlurPass
  | 0, _ => []
  | n + 1, src =>
      ⟨scaledWidth W strength, scaledHeight H strength, W, H, true, src⟩ ::
        fallbackLoop W H strength n .blurred

/-- The fallback branch of `updateBlurredCanvas` (App.tsx 689-724) as the
sequence of down/upsample passes it performs on a blurred canvas of size
`W × H` (the canvas is allocated at the natural size of the image). -/
def updateBlurredCanvasFallback (W H : ℕ) (strength : ℚ) : List BlurPass :=
  fallbackLoop W H strength (passes strength).toNat .image

/-- Spec-side definition, transcribing the sentence of claim C1
literally: pass count `max 1 (round (strength / 6))`, every pass
downsampling into a scratch surface of the unclamped size `(round (W *
scale), round (H * scale))`, upsampling back to `W × H` with smoothing,
the first pass reading the image and each later pass reading the blurred
surface. -/
def specFallbackUnclamped (W H : ℕ) (strength : ℚ) : List BlurPass :=
  match (max 1 (jsRound (strength / 6))).toNat with
  | 0 => []
  | n + 1 =>
      ⟨jsRound (W * max (12 / 100) (1 - strength / 20)),
        jsRound (H * max (12 / 100) (1 - strength / 20)), W, H, true, .image⟩ ::
        List.replicate n
          ⟨jsRound (W * max (12 / 100) (1 - strength / 20)),
            jsRound (H * max (12 / 100) (1 - strength / 20)), W, H, true, .blurred⟩

/-- Spec-side definition for claim C1 amended as the code forces:
identical to `specFallbackUnclamped` except that each scratch dimension
is clamped to at least 1, giving `max 1 (round (W * scale))` by `max 1
(round (H * scale))`. -/
def specFallbackClamped (W H : ℕ) (strength : ℚ) : List BlurPass :=
  match (max 1 (jsRound (strength / 6))).toNat with
  | 0 => []
  | n + 1 =>
      ⟨max 1 (jsRound (W * max (12 / 100) (1 - strength / 20))),
        max 1 (jsRound (H * max (12 / 100) (1 - strength / 20))), W, H, true, .image⟩ ::
        List.replicate n
          ⟨max 1 (jsRound (W * max (12 / 100) (1 - strength / 20))),
            max 1 (jsRound (H * max (12 / 100) (1 - strength / 20))), W, H, true, .blurred⟩

/-- The Brush Compositor `applyBlurAtPoint` (App.tsx 953-988).  The code
clips the display canvas to the circle of radius `brushSize / 2` centered
at the stroke point (`context.arc` followed by `context.clip`), then
draws the window `[startX, endX) × [startY, endY)` of the blur source
onto the display at the same coordinates, where `startX = Math.max(0,
point.x - radius)`, `endX = Math.min(canvas.width, point.x + radius)` and
likewise for `y`.  Pointwise: the new display value at `(i, j)` is the
blur-source value when `(i, j)` lies inside the circular clip and inside
the clamped copy window, and the old display value otherwise. -/
def applyBlurAtPoint {α : Type u} (W H : ℕ) (brushSize : ℚ)
    (blurSource display : ℤ → ℤ → α) (x y : ℚ) : ℤ → ℤ → α :=
  fun i j =>
    if ((i : ℚ) - x) ^ 2 + ((j : ℚ) - y) ^ 2 ≤ (brushSize / 2) ^ 2 ∧
        max 0 (x - brushSize / 2) ≤ (i : ℚ) ∧
        (i : ℚ) < min (W : ℚ) (x + brushSize / 2) ∧
        max 0 (y - brushSize / 2) ≤ (j : ℚ) ∧
        (j : ℚ) < min (H : ℚ) (y + brushSize / 2)
    then blurSource i j
    else display i j

/-- The three surfaces owned after a successful load: original (the
source canvas, written once at load), display (the visible canvas,
mutated by brush strokes) and blurred, together with their common
size. -/
structure SurfaceState (α : Type u) where
  width : ℕ
  height : ℕ
  original : ℤ → ℤ → α
  display : ℤ → ℤ → α
  blurred : ℤ → ℤ → α

/-- One brush stroke (App.tsx 953-988): repaint the display through
`applyBlurAtPoint`; the original and blurred surfaces are not touched. -/
def applyStroke {α : Type u} (st : SurfaceState α) (p : ℚ × ℚ) (brushSize : ℚ) :
    SurfaceState α :=
  { st with
    display := applyBlurAtPoint st.width st.height brushSize st.blurred st.display p.1 p.2 }

/-- A sequence of brush strokes applied in order. -/
def applyStrokes {α : Type u} (st : SurfaceState α) :
    List ((ℚ × ℚ) × ℚ) → SurfaceState α
  | [] => st
  | s :: rest => applyStrokes (applyStroke st s.1 s.2) rest

/-- The reset handler `handleReset` (App.tsx 1110-1121): clear the
display canvas and draw the source canvas back into it at the origin.
Both canvases have the same size, and source-over drawing onto a cleared
canvas reproduces the source exactly, so the display surface becomes the
original surface pointwise; nothing else changes. -/
def handleReset {α : Type u} (st : SurfaceState α) : SurfaceState α :=
  { st with display := st.original }

/-- The two input kinds the router distinguishes (the values stored in
`activeInputRef`). -/
inductive InputKind where
  | pointer
  | touch
deriving DecidableEq, Repr

/-- The refs the input handlers read: `isDrawingRef`, `activeInputRef`
and the presence of a blur source (`blurSourceRef.current`). -/
structure RouterState where
  hasBlurSource : Bool
  isDrawing : Bool
  activeInput : Option InputKind
deriving DecidableEq, Repr

/-- Canvas input events: `down` is pointerdown/touchstart, `move` is
pointermove/touchmove, `up` is pointerup/touchend, `cancel` is
pointercancel/touchcancel, and `leave` is pointerleave (a pointer-only
event). -/
inductive InputEvent where
  | down (k : InputKind) (x y : ℚ)
  | move (k : InputKind) (x y : ℚ)
  | up (k : InputKind)
  | cancel (k : InputKind)
  | leave
deriving DecidableEq

/-- The input kind an event belongs to. -/
def InputEvent.kind : InputEvent → InputKind
  | .down k _ _ => k
  | .move k _ _ => k
  | .up k => k
  | .cancel k => k
  | .leave => .pointer

/-- The pointer and touch handlers (App.tsx 990-1084) as one step
function.  For each event it returns the next router state and the list
of points handed to the Brush Compositor.
For `down`: return unless a blur source exists and no session of another
kind is active; otherwise mark the session active for that kind and
apply the brush at the event point.
For `move`: return unless drawing and the session kind matches;
otherwise apply the brush at the event point.
For `up`, `cancel` and `leave`: return unless the session kind matches;
otherwise end the session.
The touch-debug overlay maintained by `recordTouchEvent` is a purely
diagnostic display and is outside the editing model. -/
def routerStep (st : RouterState) : InputEvent → RouterState × List (ℚ × ℚ)
  | .down k x y =>
      if st.hasBlurSource = false then (st, [])
      else if st.activeInput ≠ none ∧ st.activeInput ≠ some k then (st, [])
      else ({ st with activeInput := some k, isDrawing := true }, [(x, y)])
  | .move k x y =>
      if st.isDrawing = false ∨ st.activeInput ≠ some k then (st, [])
      else (st, [(x, y)])
  | .up k =>
      if st.activeInput ≠ some k then (st, [])
      else ({ st with isDrawing := false, activeInput := none }, [])
  | .cancel k =>
      if st.activeInput ≠ some k then (st, [])
      else ({ st with isDrawing := false, activeInput := none }, [])
  | .leave =>
      if st.activeInput ≠ some InputKind.pointer then (st, [])
      else ({ st with isDrawing := false, activeInput := none }, [])

/-- A decoded image instance: identity, display name and natural size.
Reference identity (`imageRef.current === image`) is modelled by value
equality; distinct loads carry distinct identifiers. -/
structure Img where
  id : ℕ
  name : String
  naturalWidth : ℕ
  naturalHeight : ℕ
deriving DecidableEq, Repr

/-- Width and height of one canvas. -/
structure CanvasDims where
  width : ℕ
  height : ℕ
deriving DecidableEq, Repr

/-- The three surfaces `setupCanvases` allocates: the visible display
canvas, the source (original) canvas and the blurred canvas. -/
structure CanvasSet where
  display : CanvasDims
  original : CanvasDims
  blurred : CanvasDims
deriving DecidableEq, Repr

/-- The Surface Manager `setupCanvases` (App.tsx 569-593): all three
canvases are sized `naturalWidth × naturalHeight` of the decoded
image. -/
def setupCanvases (img : Img) : CanvasSet :=
  ⟨⟨img.naturalWidth, img.naturalHeight⟩,
    ⟨img.naturalWidth, img.naturalHeight⟩,
    ⟨img.naturalWidth, img.naturalHeight⟩⟩

/-- Status message for a zero-size blob, verbatim from App.tsx 753. -/
def emptyBlobMsg : String := "Image data was empty or blocked by the browser."

/-- Status message while a decode is in flight, verbatim from App.tsx
758. -/
def loadingMsg : String := "Loading image..."

/-- Status message for a decode with zero natural size, verbatim from
App.tsx 767. -/
def zeroSizeMsg : String := "Image decoded with no visible pixels."

/-- Status message for a failed decode, verbatim from App.tsx 794. -/
def loadErrorMsg : String := "Could not load that image."

/-- Status message for a successful load, verbatim from App.tsx 777. -/
def readyMsg : String := "Image ready. Drag to paint subtle blur."

/-- The mutable state the loader touches: `imageRef.current` (the most
recently committed decode), the image details state, the allocated
surfaces, and the status message. -/
structure LoaderState where
  imageRef : Option Img
  details : Option Img
  surfaces : Option CanvasSet
  status : String
deriving DecidableEq, Repr

/-- Externally visible effects of a loader step. -/
inductive LoaderEffect where
  | startedDecode (img : Img)
  | scheduledFrame (img : Img)
  | invokedSurfaceManager (img : Img)
deriving DecidableEq, Repr

/-- The synchronous part of `loadImageFromBlob` (App.tsx 751-762): a
zero-size blob is rejected with a status message and nothing else
happens; otherwise the status is set and the decode begins. -/
def loadImageFromBlob (st : LoaderState) (blobSize : ℕ) (img : Img) :
    LoaderState × List LoaderEffect :=
  if blobSize = 0 then ({ st with status := emptyBlobMsg }, [])
  else ({ st with status := loadingMsg }, [.startedDecode img])

/-- The onload callback of the decode (App.tsx 764-790): a decode with
zero natural width or height only sets a status message; otherwise the
image is committed (`imageRef`, details, status) and a frame callback is
scheduled. -/
def onImageLoad (st : LoaderState) (img : Img) : LoaderState × List LoaderEffect :=
  if img.naturalWidth = 0 ∨ img.naturalHeight = 0 then
    ({ st with status := zeroSizeMsg }, [])
  else
    ({ st with imageRef := some img, details := some img, status := readyMsg },
      [.scheduledFrame img])

/-- The onerror callback of the decode (App.tsx 792-796): only the
status message changes. -/
def onImageError (st : LoaderState) (img : Img) : LoaderState × List LoaderEffect :=
  ({ st with status := loadErrorMsg }, [])

/-- The `requestAnimationFrame` callback scheduled by onload (App.tsx
786-789): if `imageRef.current` is no longer this image, do nothing;
otherwise invoke `renderImageToCanvas`, and therefore `setupCanvases`,
replacing the surfaces. -/
def onRenderFrame (st : LoaderState) (img : Img) : LoaderState × List LoaderEffect :=
  if st.imageRef = some img then
    ({ st with surfaces := some (setupCanvases img) }, [.invokedSurfaceManager img])
  else (st, [])

/-- Loader events, for interleaving overlapping loads. -/
inductive LoaderEvent where
  | request (blobSize : ℕ) (img : Img)
  | decoded (img : Img)
  | decodeError (img : Img)
  | frame (img : Img)
deriving DecidableEq, Repr

/-- Dispatch of one loader event to its handler. -/
def loaderStep (st : LoaderState) : LoaderEvent → LoaderState × List LoaderEffect
  | .request n img => loadImageFromBlob st n img
  | .decoded img => onImageLoad st img
  | .decodeError img => onImageError st img
  | .frame img => onRenderFrame st img

/-- Run of a trace of loader events, accumulating effects. -/
def runLoader : LoaderState → List LoaderEvent → LoaderState × List LoaderEffect
  | st, [] => (st, [])
  | st, e :: es =>
      let r := loaderStep st e
      let rest := runLoader r.1 es
      (rest.1, r.2 ++ rest.2)

/-- The image of the most recent load request in a trace. -/
def lastRequested (events : List LoaderEvent) : Option Img :=
  events.foldl
    (fun acc e =>
      match e with
      | .request _ img => some img
      | _ => acc)
    none

/-- The loader state before any image is loaded. -/
def initLoader : LoaderState := ⟨none, none, none, ""⟩

/-- A first load request: image instance 0, sized 10 by 10. -/
def imgA : Img := ⟨0, "a.png", 10, 10⟩

/-- A second, later load request: image instance 1, sized 20 by 20. -/
def imgB : Img := ⟨1, "b.png", 20, 20⟩

/-- An interleaving in which imgA is requested first, imgB is requested
afterwards (superseding imgA), imgB decodes and renders first, and the
slower decode of imgA completes last. -/
def staleDecodeTrace : List LoaderEvent :=
  [.request 1 imgA, .request 1 imgB, .decoded imgB, .frame imgB,
    .decoded imgA, .frame imgA]

/-! Lemmas and theorems. -/

lemma fallbackLoop_blurred_eq_replicate (W H : ℕ) (strength : ℚ) (n : ℕ) :
    fallbackLoop W H strength n .blurred =
      List.replicate n
        ⟨scaledWidth W strength, scaledHeight H strength, W, H, true, .blurred⟩ := by
  induction n with
  | zero => rfl
  | succ n ih => simp [fallbackLoop, List.replicate, ih]

/-- Claim C1 (amended form, proved): for every blurred-canvas size and
every strength value, the fallback renderer performs exactly the pass
list the amended spec sentence describes — pass count `max 1 (round
(strength / 6))`, each pass downsampling into a scratch surface of the
clamped size `max 1 (round (W * scale))` by `max 1 (round (H * scale))`
with `scale = max 0.12 (1 - strength / 20)` and smoothed interpolation,
then upsampling back to `W × H` into the blurred surface, the first pass
reading the image and every later pass reading the blurred surface. -/
theorem updateBlurredCanvasFallback_eq_specClamped (W H : ℕ) (strength : ℚ) :
    updateBlurredCanvasFallback W H strength = specFallbackClamped W H strength := by
  unfold updateBlurredCanvasFallback specFallbackClamped
  have hp : (passes strength).toNat = (max 1 (jsRound (strength / 6))).toNat := rfl
  rw [hp]
  cases h : (max 1 (jsRound (strength / 6))).toNat with
  | zero => rfl
  | succ n =>
      simp only [fallbackLoop]
      rw [fallbackLoop_blurred_eq_replicate]
      rfl

/-- Counterexample to claim C1 as stated: at `W = H = 4` and `strength =
18` (a value the UI slider allows), `round (4 * scale 18) = round 0.48 =
0`, so the claimed scratch size is 0 by 0 while the code clamps it to 1
by 1; the pass lists differ. -/
theorem fallback_cex_unclamped :
    updateBlurredCanvasFallback 4 4 18 ≠ specFallbackUnclamped 4 4 18 := by
  have hpass : (passes 18).toNat = 3 := by
    norm_num [passes, jsRound]
    decide
  have hspec : (max 1 (jsRound ((18 : ℚ) / 6))).toNat = 3 := hpass
  have hsw : scaledWidth 4 18 = 1 := by
    norm_num [scaledWidth, jsRound, scale, max_def]
  have hsh : scaledHeight 4 18 = 1 := by
    norm_num [scaledHeight, jsRound, scale, max_def]
  have hr : jsRound (((4 : ℕ) : ℚ) * max (12 / 100) (1 - (18 : ℚ) / 20)) = 0 := by
    norm_num [jsRound, max_def]
  have hL : updateBlurredCanvasFallback 4 4 18 =
      [⟨scaledWidth 4 18, scaledHeight 4 18, 4, 4, true, .image⟩,
        ⟨scaledWidth 4 18, scaledHeight 4 18, 4, 4, true, .blurred⟩,
        ⟨scaledWidth 4 18, scaledHeight 4 18, 4, 4, true, .blurred⟩] := by
    unfold updateBlurredCanvasFallback
    rw [hpass]
    rfl
  have hR : specFallbackUnclamped 4 4 18 =
      [⟨jsRound (((4 : ℕ) : ℚ) * max (12 / 100) (1 - (18 : ℚ) / 20)),
          jsRound (((4 : ℕ) : ℚ) * max (12 / 100) (1 - (18 : ℚ) / 20)), 4, 4, true, .image⟩,
        ⟨jsRound (((4 : ℕ) : ℚ) * max (12 / 100) (1 - (18 : ℚ) / 20)),
          jsRound (((4 : ℕ) : ℚ) * max (12 / 100) (1 - (18 : ℚ) / 20)), 4, 4, true, .blurred⟩,
        ⟨jsRound (((4 : ℕ) : ℚ) * max (12 / 100) (1 - (18 : ℚ) / 20)),
          jsRound (((4 : ℕ) : ℚ) * max (12 / 100) (1 - (18 : ℚ) / 20)), 4, 4, true, .blurred⟩] := by
    unfold specFallbackUnclamped
    rw [hspec]
    rfl
  rw [hL, hR, hsw, hsh, hr]
  decide

/-- Claim C10: for every image with positive width and height and every
strength, the scratch dimensions computed by the fallback path are
clamped to at least 1 by 1, so every downscale pass of the rendered pass
list targets a surface of positive size. -/
theorem fallback_scratch_dims_positive (W H : ℕ) (strength : ℚ)
    (_hW : 0 < W) (_hH : 0 < H) :
    1 ≤ scaledWidth W strength ∧ 1 ≤ scaledHeight H strength ∧
      ∀ p ∈ updateBlurredCanvasFallback W H strength,
        1 ≤ p.scratchW ∧ 1 ≤ p.scratchH := by
  refine ⟨le_max_left _ _, le_max_left _ _, ?_⟩
  have hgo : ∀ (n : ℕ) (src : BlurSource) (p : BlurPass),
      p ∈ fallbackLoop W H strength n src → 1 ≤ p.scratchW ∧ 1 ≤ p.scratchH := by
    intro n
    induction n with
    | zero => intro src p hp; simp [fallbackLoop] at hp
    | succ n ih =>
        intro src p hp
        simp only [fallbackLoop, List.mem_cons] at hp
        rcases hp with hp | hp
        · subst hp
          exact ⟨le_max_left _ _, le_max_left _ _⟩
        · exact ih .blurred p hp
  intro p hp
  exact hgo _ _ p hp

/-- Witness for `fallback_scratch_dims_positive` at `W = H = 4` and
`strength = 18`, a slider value for which the unclamped rounding would
give a scratch surface of size 0 by 0. -/
theorem fallback_scratch_dims_positive_witness :
    0 < 4 ∧ 0 < 4 ∧
      (1 ≤ scaledWidth 4 18 ∧ 1 ≤ scaledHeight 4 18 ∧
        ∀ p ∈ updateBlurredCanvasFallback 4 4 18,
          1 ≤ p.scratchW ∧ 1 ≤ p.scratchH) :=
  ⟨by decide, by decide, fallback_scratch_dims_positive 4 4 18 (by decide) (by decide)⟩

/-- Claim C2: applying the brush at `(x, y)` with diameter `brushSize`
leaves every display pixel strictly outside the circle of radius
`brushSize / 2` centered at `(x, y)` unchanged, whatever the surface
bounds and the clamped copy window are. -/
theorem applyBlurAtPoint_confined {α : Type u} (W H : ℕ) (brushSize : ℚ)
    (blurSource display : ℤ → ℤ → α) (x y : ℚ) (i j : ℤ)
    (h : (brushSize / 2) ^ 2 < ((i : ℚ) - x) ^ 2 + ((j : ℚ) - y) ^ 2) :
    applyBlurAtPoint W H brushSize blurSource display x y i j = display i j := by
  unfold applyBlurAtPoint
  exact if_neg fun hc => absurd hc.1 (not_le.mpr h)

/-- Witness for `applyBlurAtPoint_confined`: on a surface of size 10 by
10, the pixel at the origin is outside the brush circle of diameter 4 at
`(5, 5)`, so it keeps its display value. -/
theorem applyBlurAtPoint_confined_witness :
    ((4 : ℚ) / 2) ^ 2 < (((0 : ℤ) : ℚ) - 5) ^ 2 + (((0 : ℤ) : ℚ) - 5) ^ 2 ∧
      applyBlurAtPoint 10 10 4 (fun _ _ => (1 : ℕ)) (fun _ _ => (0 : ℕ)) 5 5 0 0 =
        (fun _ _ => (0 : ℕ)) 0 0 :=
  ⟨by norm_num,
    applyBlurAtPoint_confined 10 10 4 (fun _ _ => (1 : ℕ)) (fun _ _ => (0 : ℕ)) 5 5 0 0
      (by norm_num)⟩

/-- Claim C5: the brush is idempotent per exact point: applying it twice
at the same point with the same size (against the same blur source)
yields the same display surface as applying it once. -/
theorem applyBlurAtPoint_idem {α : Type u} (W H : ℕ) (brushSize : ℚ)
    (blurSource display : ℤ → ℤ → α) (x y : ℚ) :
    applyBlurAtPoint W H brushSize blurSource
        (applyBlurAtPoint W H brushSize blurSource display x y) x y =
      applyBlurAtPoint W H brushSize blurSource display x y := by
  funext i j
  unfold applyBlurAtPoint
  by_cases hc : ((i : ℚ) - x) ^ 2 + ((j : ℚ) - y) ^ 2 ≤ (brushSize / 2) ^ 2 ∧
      max 0 (x - brushSize / 2) ≤ (i : ℚ) ∧
      (i : ℚ) < min (W : ℚ) (x + brushSize / 2) ∧
      max 0 (y - brushSize / 2) ≤ (j : ℚ) ∧
      (j : ℚ) < min (H : ℚ) (y + brushSize / 2)
  · rw [if_pos hc, if_pos hc]
  · rw [if_neg hc, if_neg hc]

lemma applyStrokes_original {α : Type u} (st : SurfaceState α)
    (strokes : List ((ℚ × ℚ) × ℚ)) :
    (applyStrokes st strokes).original = st.original := by
  induction strokes generalizing st with
  | nil => rfl
  | cons s rest ih =>
      rw [applyStrokes, ih]
      rfl

/-- Claim C3: after any sequence of brush strokes, reset makes the
display surface pixel-identical to the original surface, and resetting
again changes nothing (reset is exact and idempotent). -/
theorem handleReset_exact_and_idem {α : Type u} (st : SurfaceState α)
    (strokes : List ((ℚ × ℚ) × ℚ)) :
    (handleReset (applyStrokes st strokes)).display = st.original ∧
      handleReset (handleReset (applyStrokes st strokes)) =
        handleReset (applyStrokes st strokes) := by
  constructor
  · show (applyStrokes st strokes).original = st.original
    exact applyStrokes_original st strokes
  · rfl

/-- Claim C9: while a drawing session of kind `k` is active, every event
of the other kind is ignored entirely: the router state is unchanged and
no brush application is performed, so only kind-`k` events can drive
compositing or end the session, and at most one input modality drives
compositing at a time. -/
theorem routerStep_ignores_other_kind (st : RouterState) (k : InputKind)
    (e : InputEvent) (_hdraw : st.isDrawing = true) (hact : st.activeInput = some k)
    (hk : e.kind ≠ k) : routerStep st e = (st, []) := by
  cases e with
  | down k2 x y =>
      have hne : k2 ≠ k := hk
      by_cases hb : st.hasBlurSource = false
      · simp [routerStep, hb]
      · have hguard : st.activeInput ≠ none ∧ st.activeInput ≠ some k2 := by
          rw [hact]
          refine ⟨Option.some_ne_none k, ?_⟩
          intro hcontra
          exact hne (Option.some_injective _ hcontra).symm
        simp [routerStep, hb, hguard]
  | move k2 x y =>
      have hne : k2 ≠ k := hk
      have hguard : st.isDrawing = false ∨ st.activeInput ≠ some k2 := by
        refine Or.inr ?_
        rw [hact]
        intro hcontra
        exact hne (Option.some_injective _ hcontra).symm
      simp [routerStep, hguard]
  | up k2 =>
      have hne : k2 ≠ k := hk
      have hguard : st.activeInput ≠ some k2 := by
        rw [hact]
        intro hcontra
        exact hne (Option.some_injective _ hcontra).symm
      simp [routerStep, hguard]
  | cancel k2 =>
      have hne : k2 ≠ k := hk
      have hguard : st.activeInput ≠ some k2 := by
        rw [hact]
        intro hcontra
        exact hne (Option.some_injective _ hcontra).symm
      simp [routerStep, hguard]
  | leave =>
      have hne : InputKind.pointer ≠ k := hk
      have hguard : st.activeInput ≠ some InputKind.pointer := by
        rw [hact]
        intro hcontra
        exact hne (Option.some_injective _ hcontra).symm
      simp [routerStep, hguard]

/-- Witness for `routerStep_ignores_other_kind`: during an active
pointer session, a touch-move event leaves the router state unchanged
and causes no brush application. -/
theorem routerStep_ignores_other_kind_witness :
    (RouterState.mk true true (some .pointer)).isDrawing = true ∧
      (RouterState.mk true true (some .pointer)).activeInput = some .pointer ∧
      (InputEvent.move .touch 3 4).kind ≠ InputKind.pointer ∧
      routerStep (RouterState.mk true true (some .pointer)) (InputEvent.move .touch 3 4) =
        (RouterState.mk true true (some .pointer), []) :=
  ⟨by decide, by decide, by decide,
    routerStep_ignores_other_kind (RouterState.mk true true (some .pointer)) .pointer
      (InputEvent.move .touch 3 4) (by decide) (by decide) (by decide)⟩

/-- Claim C4: a successful load of an image with positive natural width
and height (decode commit followed by its frame callback) allocates the
three surfaces — display, original and blurred — all sized exactly
`naturalWidth × naturalHeight`. -/
theorem load_success_three_surfaces (st : LoaderState) (img : Img)
    (hw : 0 < img.naturalWidth) (hh : 0 < img.naturalHeight) :
    (onRenderFrame (onImageLoad st img).1 img).1.surfaces =
      some ⟨⟨img.naturalWidth, img.naturalHeight⟩,
        ⟨img.naturalWidth, img.naturalHeight⟩,
        ⟨img.naturalWidth, img.naturalHeight⟩⟩ := by
  have hcond : ¬(img.naturalWidth = 0 ∨ img.naturalHeight = 0) := by omega
  simp [onImageLoad, hcond, onRenderFrame, setupCanvases]

/-- Witness for `load_success_three_surfaces`: a 10 by 10 image yields
three surfaces sized 10 by 10. -/
theorem load_success_three_surfaces_witness :
    0 < (Img.mk 0 "a.png" 10 10).naturalWidth ∧
      0 < (Img.mk 0 "a.png" 10 10).naturalHeight ∧
      (onRenderFrame (onImageLoad initLoader (Img.mk 0 "a.png" 10 10)).1
          (Img.mk 0 "a.png" 10 10)).1.surfaces =
        some ⟨⟨10, 10⟩, ⟨10, 10⟩, ⟨10, 10⟩⟩ :=
  ⟨by decide, by decide,
    load_success_three_surfaces initLoader (Img.mk 0 "a.png" 10 10)
      (by decide) (by decide)⟩

/-- Claim C7: a decode that completes with zero natural width or height,
and a decode that fails outright, each set their own distinct status
message and leave `imageRef`, the image details and the surfaces exactly
as they were, with no effect emitted; the two error messages are also
distinct from the empty-blob, loading and success messages. -/
theorem decode_error_atomic (st : LoaderState) (img : Img)
    (h : img.naturalWidth = 0 ∨ img.naturalHeight = 0) :
    onImageLoad st img = ({ st with status := zeroSizeMsg }, []) ∧
      onImageError st img = ({ st with status := loadErrorMsg }, []) ∧
      zeroSizeMsg ≠ loadErrorMsg ∧ zeroSizeMsg ≠ emptyBlobMsg ∧
      zeroSizeMsg ≠ readyMsg ∧ zeroSizeMsg ≠ loadingMsg ∧
      loadErrorMsg ≠ emptyBlobMsg ∧ loadErrorMsg ≠ readyMsg ∧
      loadErrorMsg ≠ loadingMsg :=
  ⟨by simp [onImageLoad, h], rfl, by decide, by decide, by decide, by decide,
    by decide, by decide, by decide⟩

/-- Witness for `decode_error_atomic` at a decoded width of zero. -/
theorem decode_error_atomic_witness :
    ((Img.mk 3 "broken.png" 0 7).naturalWidth = 0 ∨
        (Img.mk 3 "broken.png" 0 7).naturalHeight = 0) ∧
      (onImageLoad initLoader (Img.mk 3 "broken.png" 0 7) =
          ({ initLoader with status := zeroSizeMsg }, []) ∧
        onImageError initLoader (Img.mk 3 "broken.png" 0 7) =
          ({ initLoader with status := loadErrorMsg }, []) ∧
        zeroSizeMsg ≠ loadErrorMsg ∧ zeroSizeMsg ≠ emptyBlobMsg ∧
        zeroSizeMsg ≠ readyMsg ∧ zeroSizeMsg ≠ loadingMsg ∧
        loadErrorMsg ≠ emptyBlobMsg ∧ loadErrorMsg ≠ readyMsg ∧
        loadErrorMsg ≠ loadingMsg) :=
  ⟨by decide, decode_error_atomic initLoader (Img.mk 3 "broken.png" 0 7) (by decide)⟩

/-- Claim C8: a zero-size blob is rejected up front: the loader reports
the empty-input status, changes nothing else, and emits no effect — in
particular no decode starts and the Surface Manager is never reached. -/
theorem empty_blob_rejected (st : LoaderState) (img : Img) :
    loadImageFromBlob st 0 img = ({ st with status := emptyBlobMsg }, []) ∧
      emptyBlobMsg ≠ loadingMsg ∧ emptyBlobMsg ≠ readyMsg :=
  ⟨by simp [loadImageFromBlob], by decide, by decide⟩

/-- Counterexample to claim C6 as stated: in `staleDecodeTrace` the
latest requested image is imgB, yet the stale decode of imgA is handed
to the Surface Manager and overwrites both the details and the surfaces.
The guard compares against `imageRef.current`, which holds the most
recent decode and not the most recent request, and the detail commit
happens in onload before the render-frame check. -/
theorem stale_decode_overwrites :
    lastRequested staleDecodeTrace = some imgB ∧ imgA ≠ imgB ∧
      (runLoader initLoader staleDecodeTrace).1.details = some imgA ∧
      (runLoader initLoader staleDecodeTrace).1.surfaces = some (setupCanvases imgA) ∧
      LoaderEffect.invokedSurfaceManager imgA ∈ (runLoader initLoader staleDecodeTrace).2 := by
  decide

/-- Claim C6 (amended form, proved): the frame callback discards a
decode whenever `imageRef.current` no longer equals that decode, in
particular whenever another decode was committed after it, so such a
decode never reaches the Surface Manager; the comparison is against the
most recently decoded instance rather than the most recently requested
one, and the details commit precedes the check. -/
theorem stale_frame_discarded (st : LoaderState) (img : Img)
    (h : st.imageRef ≠ some img) : onRenderFrame st img = (st, []) := by
  unfold onRenderFrame
  exact if_neg h

/-- Witness for `stale_frame_discarded`: after imgB is committed, the
frame callback of imgA does nothing. -/
theorem stale_frame_discarded_witness :
    (LoaderState.mk (some imgB) (some imgB) none readyMsg).imageRef ≠ some imgA ∧
      onRenderFrame (LoaderState.mk (some imgB) (some imgB) none readyMsg) imgA =
        (LoaderState.mk (some imgB) (some imgB) none readyMsg, []) :=
  ⟨by decide,
    stale_frame_discarded (LoaderState.mk (some imgB) (some imgB) none readyMsg) imgA
      (by decide)⟩
